import Mathlib

/-!
Verification of the build-pipeline core of `qtbuild.py` (class `QtProjectBuilder`).

The embedding below translates the pipeline methods `_validate_paths`,
`_generate_moc_files`, `_compile_sources`, `_link_executable` and
`_package_build` into pure Lean functions.  Filesystem trees, the shared
fail-fast flag of the thread pool, and the spawned external processes are
made explicit:

* a directory tree is a value of `Entries`; `walkEntries` plays the role of
  `os.walk` (top-down, with the in-place `dirs[:]` pruning by name used at
  line 97 of the source).  Sibling files and directories are emitted in
  listing order; no theorem below depends on the relative order of siblings
  within one directory.
* paths are strings joined with "/" (the Windows separator "\\" of the
  source is rendered "/" uniformly).
* each concurrent compile task of `_compile_sources` becomes one event of a
  trace (`TaskEvent`); the shared `failed_flag` and the shared `objects`
  list become the fields of `SchedState`.  A real interleaving linearises to
  a trace by placing every task at its completion time; a task that skipped
  because it observed `failed_flag` keeps observing it at any later time
  because the flag is only ever set, so `validFrom` captures exactly the
  reachable traces.
* external processes (moc, g++, windeployqt) are recorded as the argument
  lists handed to `subprocess`; their exit codes and outputs are supplied by
  an `Env` oracle.
-/

/-! String and path helpers mirroring `os.path`.  They operate on the
character lists underlying `String` so that every function reduces inside
the kernel. -/

/-- Splits a character list at every occurrence of `c` (model of
`str.split` at one separator character). -/
def splitOnChar (c : Char) : List Char → List (List Char)
  | [] => [[]]
  | x :: xs =>
    match splitOnChar c xs with
    | [] => [[]]
    | p :: ps => if x = c then [] :: p :: ps else (x :: p) :: ps

/-- Joins a list of strings with a separator (model of `sep.join`). -/
def joinWith (sep : String) : List String → String
  | [] => ""
  | [x] => x
  | x :: y :: xs => x ++ sep ++ joinWith sep (y :: xs)

/-- Path components of a "/"-separated path. -/
def pathComponents (s : String) : List String :=
  (splitOnChar '/' s.data).map fun l => String.mk l

/-- Model of `os.path.dirname` for "/"-separated paths. -/
def dirname (s : String) : String :=
  joinWith "/" (pathComponents s).dropLast

/-- Model of `os.path.basename` for "/"-separated paths. -/
def basename (s : String) : String :=
  (pathComponents s).getLastD ""

/-- Model of `os.path.splitext(name)[0]`: drops the extension after the
last dot (names consisting only of a leading dot are not used by the
pipeline, so the special case of `splitext` for them is not modelled). -/
def stripExt (name : String) : String :=
  match (splitOnChar '.' name.data).map (fun l => String.mk l) with
  | [] => name
  | [_] => name
  | p :: q :: ps => joinWith "." ((p :: q :: ps).dropLast)

/-- Model of `os.path.join` for the arguments the pipeline passes (the
second argument is always relative). -/
def pathJoin (a b : String) : String := a ++ "/" ++ b

/-- Boolean test that `suf` is a suffix of `s` (model of `str.endswith`). -/
def strEndsWith (s suf : String) : Bool :=
  suf.data.isSuffixOf s.data

/-- Boolean test that `pat` occurs contiguously in `l`. -/
def occursIn (pat : List Char) : List Char → Bool
  | [] => pat.isEmpty
  | c :: rest => pat.isPrefixOf (c :: rest) || occursIn pat rest

/-- Boolean substring test (model of Python's `pat in s`). -/
def strContains (s pat : String) : Bool :=
  occursIn pat.data s.data

/-- Drops a leading `pre` from `s` (used by `relpath`). -/
def dropPrefixStr (pre s : String) : String :=
  String.mk (s.data.drop pre.data.length)

/-- Model of `os.path.relpath p start` for the calls made by the pipeline,
where `p` is either equal to `start` or strictly below it. -/
def relpath (p start : String) : String :=
  if p = start then "."
  else if (start ++ "/").data.isPrefixOf p.data then dropPrefixStr (start ++ "/") p
  else p

/-! Filesystem model. -/

/-- Kind of a directory entry that `os.walk` reports in its `files`
component.  A symbolic link that resolves to a directory is listed by
`os.walk` among the subdirectories, never among the files, and is not
descended into (`followlinks=False`), so it cannot reach any file
enumeration below and is not modelled. -/
inductive EntryKind where
  | regular
  | symlinkFile
  | symlinkBroken
  | special
deriving DecidableEq

/-- Contents of a file: either text decodable as UTF-8 or undecodable
bytes (reading the latter with `encoding='utf-8'` raises
`UnicodeDecodeError`). -/
inductive FileData where
  | utf8 (text : String)
  | binary
deriving DecidableEq

/-- A directory's entries: a fused list of files and subdirectories.  The
cons-list shape keeps every recursion over a tree structural, so all the
walks below evaluate inside the kernel. -/
inductive Entries where
  | nil
  | consFile (name : String) (kind : EntryKind) (data : FileData) (rest : Entries)
  | consDir (name : String) (children : Entries) (rest : Entries)
deriving DecidableEq

/-- One file met during a walk: its full path, its bare name, its entry
kind and its data. -/
structure WEntry where
  path : String
  name : String
  kind : EntryKind
  data : FileData
deriving DecidableEq

/-- Model of `os.walk` started at `root`, restricted to the file entries,
with subdirectories whose name lies in `excl` pruned before descending
(the `dirs[:] = [d for d in dirs if d not in exclude_dirs]` idiom of
`_compile_sources`, line 97; pass `excl = []` for an unpruned walk). -/
def walkEntries (excl : List String) (root : String) : Entries → List WEntry
  | .nil => []
  | .consFile n k d rest => ⟨pathJoin root n, n, k, d⟩ :: walkEntries excl root rest
  | .consDir n cs rest =>
    (if n ∈ excl then [] else walkEntries excl (pathJoin root n) cs)
      ++ walkEntries excl root rest

/-! Configuration and environment. -/

/-- The configuration dictionary handed to `QtProjectBuilder`; each field
default is the `config.get` default used in the source. -/
structure Config where
  qt_path : String
  project_path : String := "."
  output_dir : String := "./dist"
  output_name : String := "myapp"
  cxx_std : String := "c++17"
  qt_modules : List String := ["Core", "Gui", "Widgets"]
  qt_version : Nat := 6
  subsystem : String := "windows"
  extra_lib_paths : List String := []
  static_build : Bool := false
  pack_after_build : Bool := false
deriving DecidableEq

/-- Oracle for everything outside the program: `os.path.exists` on the
toolkit directories, `os.cpu_count()` (with `0` standing for `None`), the
text the moc generator writes for a header (as a function of the header's
path and text), and the exit codes of the external tools. -/
structure Env where
  qtExists : String → Bool
  cpuCount : Nat
  mocOut : String → String → String
  mocExit : String → Nat
  linkExit : Nat
  deployExit : Nat

/-- Error taxonomy of the pipeline, using the names of the specification;
the source raises `FileNotFoundError` for `configurationError`,
`UnicodeDecodeError` for `decodeError`, `CalledProcessError` for
`codeGenerationError` and `linkError`, `ValueError` (from the
`ThreadPoolExecutor` constructor) for `poolError`, and `RuntimeError` for
`compilationError`. -/
inductive BuildError where
  | configurationError (msg : String)
  | decodeError (path : String)
  | codeGenerationError (path : String)
  | poolError
  | compilationError
  | linkError (code : Nat)
  | packagingError
deriving DecidableEq

/-! Environment validator (`_validate_paths`, lines 21-25). -/

/-- The subdirectories required beneath the toolkit root. -/
def requiredDirs : List String := ["bin", "include", "lib"]

/-- Checks the required subdirectories in order; the first missing one
raises, with the message of line 25 (which embeds the configured toolkit
root, `f"{self.config['qt_path']}"`). -/
def validateFrom (cfg : Config) (ex : String → Bool) : List String → Except BuildError Unit
  | [] => .ok ()
  | d :: rest =>
    if ex (cfg.qt_path ++ "/" ++ d) then validateFrom cfg ex rest
    else .error (.configurationError ("无效的Qt路径: " ++ cfg.qt_path))

/-- Model of `_validate_paths` (run by `__init__` before any stage). -/
def validatePaths (cfg : Config) (ex : String → Bool) : Except BuildError Unit :=
  validateFrom cfg ex requiredDirs

/-! Code generator discovery (`_generate_moc_files`, lines 49-79). -/

/-- Path of the moc binary (line 52). -/
def mocExePath (cfg : Config) : String := cfg.qt_path ++ "/bin/moc.exe"

/-- The generator-output directory of line 54,
`os.path.join(".\\", 'moc_temp')`, which lives in the current working
directory, outside the walked project tree (when the project path is the
working directory itself, the `root.startswith(moc_output_dir)` check of
line 64 skips it from the walk, so in every case the walk below covers
the project tree only). -/
def mocOutputDir : String := "./moc_temp"

/-- Destination of the generated source for a header: the name depends
only on the header's bare filename (line 72 applies `splitext` to the
name, not the path). -/
def mocOutputPath (name : String) : String :=
  mocOutputDir ++ "/moc_" ++ stripExt name ++ ".cpp"

/-- The headers the generator phase reads: every walked file whose name
ends in `.h`; this walk prunes nothing. -/
def headerEntries (cfg : Config) (tree : Entries) : List WEntry :=
  (walkEntries [] cfg.project_path tree).filter fun e => strEndsWith e.name ".h"

/-- Contents of the generator-output directory, kept as the ordered log of
writes; a lookup returns the last write to a path, so a later write to the
same path overwrites an earlier one exactly as the filesystem does. -/
def lookupLastWrite : List (String × String) → String → Option String
  | [], _ => none
  | (k, v) :: rest, q =>
    match lookupLastWrite rest q with
    | some r => some r
    | none => if k = q then some v else none

/-- Model of `shutil.rmtree` followed by `os.makedirs` on the
generator-output directory (lines 57-59): whatever was there is gone. -/
def clearDir (_ : List (String × String)) : List (String × String) := []

/-- Accumulated outcome of the generator phase: the `moc_files` list in
append order, the contents written under `moc_temp`, and the spawned
generator command lines. -/
structure GenAcc where
  mocs : List String
  store : List (String × String)
  spawns : List (List String)
deriving DecidableEq

/-- Processes the walked headers in order (lines 67-78): an undecodable
header aborts with `UnicodeDecodeError` while the marker is being checked;
a header containing `Q_OBJECT` spawns the generator
(`[moc, header, '-o', output]`, with `check=True` so a non-zero exit
aborts); any other header is passed over. -/
def runGenList (cfg : Config) (env : Env) : List WEntry → GenAcc → Except BuildError GenAcc
  | [], acc => .ok acc
  | e :: rest, acc =>
    match e.data with
    | .binary => .error (.decodeError e.path)
    | .utf8 text =>
      if strContains text "Q_OBJECT" then
        if env.mocExit e.path = 0 then
          runGenList cfg env rest
            ⟨acc.mocs ++ [mocOutputPath e.name],
             acc.store ++ [(mocOutputPath e.name, env.mocOut e.path text)],
             acc.spawns ++ [[mocExePath cfg, e.path, "-o", mocOutputPath e.name]]⟩
        else .error (.codeGenerationError e.path)
      else runGenList cfg env rest acc

/-- Model of `_generate_moc_files`: clears the generator-output directory
(whose previous contents are `store₀`) and processes every header of the
project tree. -/
def genPhase (cfg : Config) (env : Env) (tree : Entries)
    (store₀ : List (String × String)) : Except BuildError GenAcc :=
  runGenList cfg env (headerEntries cfg tree) ⟨[], clearDir store₀, []⟩

/-! Compilation scheduler (`_compile_sources`, lines 81-173). -/

/-- The fixed part of the compiler command (lines 83-91). -/
def compile_cmd (cfg : Config) : List String :=
  ["g++", "-c", "-pipe", "-std=" ++ cfg.cxx_std, "-Wall", "-Wextra",
   "-I" ++ cfg.qt_path ++ "/include", "-I" ++ cfg.project_path ++ "/include"]
  ++ cfg.qt_modules.map fun m => "-I" ++ cfg.qt_path ++ "/include/Qt" ++ m

/-- The artifact directories pruned from the source walk (line 95). -/
def excludeDirs : List String := ["moc_temp", "build", "obj"]

/-- The walked project files whose name ends in `.cpp` (lines 96-100). -/
def cppEntries (cfg : Config) (tree : Entries) : List WEntry :=
  (walkEntries excludeDirs cfg.project_path tree).filter fun e => strEndsWith e.name ".cpp"

/-- Paths of the ordinary sources found by the walk. -/
def cppFiles (cfg : Config) (tree : Entries) : List String :=
  (cppEntries cfg tree).map fun e => e.path

/-- Model of `all_sources = list(set(cpp_files + moc_files))` (line 102);
`dedup` realises the set's at-most-once semantics (the iteration order of
a Python set is arbitrary, and no property below depends on the order). -/
def allSources (cfg : Config) (tree : Entries) (mocFiles : List String) : List String :=
  (cppFiles cfg tree ++ mocFiles).dedup

/-- Object-file destination of a source (lines 116-119). -/
def objPath (cfg : Config) (src : String) : String :=
  pathJoin (pathJoin "obj" (relpath (dirname src) cfg.project_path))
    (stripExt (basename src) ++ ".o")

/-- Full compiler invocation for one source (line 128,
`[*compile_cmd, '-o', obj, src]`). -/
def compileInvocation (cfg : Config) (src : String) : List String :=
  compile_cmd cfg ++ ["-o", objPath cfg src, src]

/-- What one scheduled compile task did: either it observed the shared
failure flag at its initial check (line 112) and returned without
compiling, or it ran the compiler, which exited with the given code. -/
inductive TaskEvent where
  | skip
  | run (exitCode : Nat)
deriving DecidableEq

/-- The state shared by all compile tasks: the `failed_flag`, the
`objects` list, and (for the bookkeeping of this model) the compiler
command lines spawned so far. -/
structure SchedState where
  flag : Bool
  objects : List String
  spawns : List (List String)
deriving DecidableEq

/-- Effect of one settled task on the shared state (lines 110-155): a
skipped task changes nothing; a task that ran spawned its compiler
invocation, set `failed_flag` on a non-zero exit (line 149; the flag is
only ever set, never cleared) and appended its object on a zero exit
(line 153). -/
def stepSched (cfg : Config) (s : SchedState) : String × TaskEvent → SchedState
  | (_, .skip) => s
  | (src, .run c) =>
    { flag := s.flag || decide (c ≠ 0)
      objects := if c = 0 then s.objects ++ [objPath cfg src] else s.objects
      spawns := s.spawns ++ [compileInvocation cfg src] }

/-- Replays a trace of settled tasks over the shared state. -/
def runSched (cfg : Config) (s : SchedState) : List (String × TaskEvent) → SchedState
  | [] => s
  | te :: rest => runSched cfg (stepSched cfg s te) rest

/-- The shared state before any task settles. -/
def initSched : SchedState := ⟨false, [], []⟩

/-- Characterises the traces a real interleaving can produce: a task may
skip only when the failure flag is already set at its linearisation point
(the flag is monotone, so observing it set at the line-112 check implies
it is set at every later point), while a task that passed the check may
run and finish with any exit code, even after the flag became set
(cooperative, not preemptive, cancellation). -/
def validFrom (flag : Bool) : List (String × TaskEvent) → Bool
  | [] => true
  | (_, .skip) :: rest => flag && validFrom flag rest
  | (_, .run c) :: rest => validFrom (flag || decide (c ≠ 0)) rest

/-- Effective worker bound: `os.cpu_count() or 4` (line 158), with
`cpuCount = 0` standing for a `None` return. -/
def cpuEff (env : Env) : Nat :=
  if env.cpuCount = 0 then 4 else env.cpuCount

/-- Result of `_compile_sources` once the submitted tasks settled as
`trace`: constructing `ThreadPoolExecutor(max_workers=0)` raises
`ValueError` (CPython refuses a non-positive worker count), which the
model reports as `poolError` when `min(cpu, len(sources)) = 0`; otherwise
the phase fails with `compilationError` exactly when the shared flag ended
set (lines 169-170), and returns the collected objects otherwise. -/
def compilePhase (cfg : Config) (env : Env) (tree : Entries) (mocFiles : List String)
    (trace : List (String × TaskEvent)) : Except BuildError (List String) :=
  if min (cpuEff env) (allSources cfg tree mocFiles).length = 0 then .error .poolError
  else if (runSched cfg initSched trace).flag then .error .compilationError
  else .ok (runSched cfg initSched trace).objects

/-- The compiler command lines spawned while the trace settled. -/
def compileSpawns (cfg : Config) (trace : List (String × TaskEvent)) : List (List String) :=
  (runSched cfg initSched trace).spawns

/-! Linker (`_link_executable`, lines 175-229). -/

/-- Path of the produced executable (lines 179-180). -/
def exePath (cfg : Config) : String :=
  pathJoin cfg.output_dir (cfg.output_name ++ ".exe")

/-- Static-link flags (`_get_link_options`, lines 218-229). -/
def linkOptions (cfg : Config) : List String :=
  if cfg.static_build then
    ["-static", "-static-libgcc", "-static-libstdc++", "-Wl,-Bstatic",
     "-lwinpthread", "-Wl,-Bdynamic"]
  else []

/-- The linker command line (lines 182-194). -/
def linkCmd (cfg : Config) (objects : List String) : List String :=
  ["g++", "-Wl,-subsystem," ++ cfg.subsystem, "-L" ++ cfg.qt_path ++ "/lib"]
  ++ cfg.extra_lib_paths.map (fun p => "-L" ++ p)
  ++ linkOptions cfg
  ++ ["-o", exePath cfg]
  ++ objects
  ++ ["-lz", "-lopengl32", "-lGLU32", "-lgdi32", "-luser32"]
  ++ cfg.qt_modules.map (fun m => "-lQt" ++ toString cfg.qt_version ++ m)
  ++ ["-lmingw32", "-ldwmapi"]

/-- Model of `_link_executable`: spawns the linker once; a non-zero exit
raises `CalledProcessError` (lines 212-213). -/
def linkPhase (cfg : Config) (env : Env) (objects : List String) :
    Except BuildError String × List (List String) :=
  (if env.linkExit = 0 then .ok (exePath cfg) else .error (.linkError env.linkExit),
   [linkCmd cfg objects])

/-! Packager (`_package_build`, lines 231-305). -/

/-- The dependency-deployment command (lines 235-240). -/
def deployCmd (cfg : Config) (exe : String) : List String :=
  [cfg.qt_path ++ "/bin/windeployqt.exe", "--dir", dirname exe, "--no-translations", exe]

/-- The final archive destination,
`<project>/build/<basename(exe_path[:-4])>_full.zip` (lines 271-276). -/
def finalZipPath (cfg : Config) (exe : String) : String :=
  pathJoin (pathJoin cfg.project_path "build")
    (basename (exe.dropRight 4) ++ "_full.zip")

/-- Result of `os.path.isfile` on a walked entry: the test follows
symbolic links, so it accepts a regular file and equally a symbolic link
that resolves to a regular file; it rejects a dangling link and a
non-regular entry such as a fifo. -/
def isfileFollow : EntryKind → Bool
  | .regular => true
  | .symlinkFile => true
  | .symlinkBroken => false
  | .special => false

/-- The walked entries that `_package_build` writes into the archive
(lines 283-293): every file of the unpruned walk of the output directory
that passes the `os.path.isfile` test of line 286. -/
def archiveEntries (outputDir : String) (tree : Entries) : List WEntry :=
  (walkEntries [] outputDir tree).filter fun e => isfileFollow e.kind

/-- Archive member names: paths relative to the output directory
(line 290). -/
def archiveArcnames (outputDir : String) (tree : Entries) : List String :=
  (archiveEntries outputDir tree).map fun e => relpath e.path outputDir

/-- What the stable archive path can hold: nothing, a complete archive
with the given bytes, or a partially written file. -/
inductive ArchiveSlot where
  | absent
  | archive (content : String)
  | halfWritten (content : String)
deriving DecidableEq

/-- The two filesystem operations `_package_build` performs at the stable
path after the temp archive is complete: `os.remove(final_zip)` when it
exists (line 297; a no-op when absent), then `shutil.move(tmp_zip,
final_zip)` (line 298, modelled as an atomic rename; the temp archive is
complete, so what lands is the whole new archive). -/
inductive PkgStep where
  | removeFinal
  | moveTmp
deriving DecidableEq

/-- Effect of one of those operations on the stable path (each outcome is
independent of the previous state: the removal empties the slot whether or
not it was filled, and the move lands the complete new archive). -/
def applyPkgStep (newContent : String) (_s : ArchiveSlot) : PkgStep → ArchiveSlot
  | .removeFinal => .absent
  | .moveTmp => .archive newContent

/-- The operation sequence of lines 296-298. -/
def movePhaseSteps : List PkgStep := [.removeFinal, .moveTmp]

/-- State of the stable archive path when packaging is interrupted after
the temp archive is built and the first `k` of the remove/move operations
have run. -/
def slotAfterInterrupt (newContent : String) (s₀ : ArchiveSlot) (k : Nat) : ArchiveSlot :=
  (movePhaseSteps.take k).foldl (applyPkgStep newContent) s₀

/-! Pipeline controller (`build`, lines 27-47, plus the `__init__`
validation): each stage failure is caught at line 43 and turns into a
`False` return.  The boolean result is paired with the spawned external
command lines of the completed stages (the spawn lists of a stage that
aborted mid-way are not tracked; no theorem examines them). -/

/-- Model of constructing a `QtProjectBuilder` and calling `build` on it,
given the settled compile trace.  Packaging archives via
`slotAfterInterrupt` only on interruption, which `build` as a total
function does not model; an uninterrupted packaging succeeds after a
zero-exit deployment. -/
def buildRun (cfg : Config) (env : Env) (tree : Entries)
    (trace : List (String × TaskEvent)) : Bool × List (List String) :=
  match validatePaths cfg env.qtExists with
  | .error _ => (false, [])
  | .ok _ =>
    match genPhase cfg env tree [] with
    | .error _ => (false, [])
    | .ok acc =>
      match compilePhase cfg env tree acc.mocs trace with
      | .error _ => (false, acc.spawns ++ compileSpawns cfg trace)
      | .ok objs =>
        match linkPhase cfg env objs with
        | (.error _, ls) => (false, acc.spawns ++ compileSpawns cfg trace ++ ls)
        | (.ok exe, ls) =>
          if cfg.pack_after_build then
            (env.deployExit = 0,
             acc.spawns ++ compileSpawns cfg trace ++ ls ++ [deployCmd cfg exe])
          else (true, acc.spawns ++ compileSpawns cfg trace ++ ls)

/-! Claim-text renderings of the per-source compiler invocation, for the
refinement comparison of claim C6.  Both are written from the words of the
claim, not from the source. -/

/-- The invocation exactly as claim C6 words it: fixed flags, then one
`-I<toolkit>/include/<Module>` per enabled module, then
`-o <object-path> <source-path>`. -/
def claimC6Cmd (cfg : Config) (src : String) : List String :=
  ["g++", "-c", "-pipe", "-std=" ++ cfg.cxx_std, "-Wall", "-Wextra",
   "-I" ++ cfg.qt_path ++ "/include", "-I" ++ cfg.project_path ++ "/include"]
  ++ (cfg.qt_modules.map fun m => "-I" ++ cfg.qt_path ++ "/include/" ++ m)
  ++ ["-o", objPath cfg src, src]

/-- The invocation as amended: the per-module include directory carries
the `Qt` name prefix, `-I<toolkit>/include/Qt<Module>`. -/
def claimC6AmendedCmd (cfg : Config) (src : String) : List String :=
  ["g++", "-c", "-pipe", "-std=" ++ cfg.cxx_std, "-Wall", "-Wextra",
   "-I" ++ cfg.qt_path ++ "/include", "-I" ++ cfg.project_path ++ "/include"]
  ++ (cfg.qt_modules.map fun m => "-I" ++ cfg.qt_path ++ "/include/Qt" ++ m)
  ++ ["-o", objPath cfg src, src]

/-! Concrete fixtures used by counterexamples and witnesses. -/

/-- A configuration with explicit toolkit and project roots; every other
field keeps its `config.get` default. -/
def cfgEx : Config := { qt_path := "C:/Qt", project_path := "proj" }

/-- An environment where the toolkit layout is complete and every external
tool succeeds. -/
def envEx : Env :=
  ⟨fun _ => true, 4, fun _ _ => "generated", fun _ => 0, 0, 0⟩

/-- An environment whose toolkit root exposes none of the required
subdirectories. -/
def envNoQt : Env :=
  ⟨fun _ => false, 4, fun _ _ => "generated", fun _ => 0, 0, 0⟩

/-- A project tree holding one ordinary source. -/
def treeMain : Entries := .consFile "main.cpp" .regular (.utf8 "int main") .nil

/-- A project tree holding one header that carries the marker token. -/
def treeHeader : Entries := .consFile "w.h" .regular (.utf8 "class W Q_OBJECT") .nil

/-- A project tree holding one header that is not valid UTF-8. -/
def treeBinHeader : Entries := .consFile "bad.h" .regular .binary .nil

/-- A project tree with two same-named marker headers in two directories
(the shape of claim C9). -/
def treeTwoHeaders (d₁ d₂ fname k₁ k₂ : String) : Entries :=
  .consDir d₁ (.consFile fname .regular (.utf8 k₁) .nil)
    (.consDir d₂ (.consFile fname .regular (.utf8 k₂) .nil) .nil)

/-- A deployment output directory holding a regular file and a symbolic
link that resolves to a regular file elsewhere. -/
def outTreeEx : Entries :=
  .consFile "app.exe" .regular (.utf8 "exebytes")
    (.consFile "helper.dll" .symlinkFile (.utf8 "targetbytes") .nil)

/-- A trace where the single task compiled successfully. -/
def traceOk : List (String × TaskEvent) := [("proj/main.cpp", .run 0)]

/-- A trace where the single task's compiler exited non-zero. -/
def traceFail : List (String × TaskEvent) := [("proj/main.cpp", .run 1)]

/-- The generator-phase outcome on `treeHeader` under `envEx`. -/
def genAccEx : GenAcc :=
  ⟨["./moc_temp/moc_w.cpp"],
   [("./moc_temp/moc_w.cpp", "generated")],
   [["C:/Qt/bin/moc.exe", "proj/w.h", "-o", "./moc_temp/moc_w.cpp"]]⟩

/-! Helper lemmas shared by several claims. -/

/-- A required-subdirectory scan with at least one missing entry raises
the line-25 error, whose message embeds the toolkit root. -/
theorem validateFrom_error (cfg : Config) (ex : String → Bool) :
    ∀ ds : List String, (∃ d ∈ ds, ex (cfg.qt_path ++ "/" ++ d) = false) →
      validateFrom cfg ex ds =
        .error (.configurationError ("无效的Qt路径: " ++ cfg.qt_path)) := by
  intro ds
  induction ds with
  | nil => rintro ⟨d, hd, _⟩; cases hd
  | cons a rest ih =>
    rintro ⟨d, hd, hex⟩
    by_cases ha : ex (cfg.qt_path ++ "/" ++ a) = true
    · have hdr : d ∈ rest := by
        rcases List.mem_cons.mp hd with rfl | h
        · rw [hex] at ha; cases ha
        · exact h
      simp only [validateFrom, ha, if_true]
      exact ih ⟨d, hdr, hex⟩
    · have ha' : ex (cfg.qt_path ++ "/" ++ a) = false := by
        simpa using ha
      simp [validateFrom, ha']

/-- The shared failure flag is monotone: once set it stays set for the
rest of any trace. -/
theorem runSched_flag_mono (cfg : Config) :
    ∀ (l : List (String × TaskEvent)) (s : SchedState), s.flag = true →
      (runSched cfg s l).flag = true := by
  intro l
  induction l with
  | nil => intro s h; simpa [runSched] using h
  | cons te rest ih =>
    intro s h
    rw [runSched]
    apply ih
    obtain ⟨src, e⟩ := te
    cases e with
    | skip => simpa [stepSched] using h
    | run c => simp [stepSched, h]

/-- Any trace containing a task whose compiler exited non-zero ends with
the failure flag set, whatever the other tasks did. -/
theorem runSched_flag_of_fail (cfg : Config) (src : String) (c : Nat) (hc : c ≠ 0) :
    ∀ (l : List (String × TaskEvent)) (s : SchedState),
      (src, TaskEvent.run c) ∈ l → (runSched cfg s l).flag = true := by
  intro l
  induction l with
  | nil => intro s h; cases h
  | cons te rest ih =>
    intro s h
    rcases List.mem_cons.mp h with heq | hmem
    · rw [runSched]
      apply runSched_flag_mono
      rw [← heq]
      simp [stepSched, hc]
    · rw [runSched]
      exact ih _ hmem

/-! Claim C1: archive atomicity at the stable path. -/

/-- Claim C1 is refuted: when packaging is interrupted after the
`os.remove` of the pre-existing archive (line 297) but before the
`shutil.move` (line 298), the stable path is absent although an archive
was present there before the run, so the path is not left exactly as it
was. -/
theorem c1_counterexample :
    slotAfterInterrupt "newzip" (ArchiveSlot.archive "oldzip") 1 = ArchiveSlot.absent ∧
    ArchiveSlot.absent ≠ ArchiveSlot.archive "oldzip" := by
  exact ⟨rfl, by decide⟩

/-- Claim C1 as amended: at every interruption point after the temp
archive is built, the stable path holds the pre-existing state, or
nothing, or the complete new archive — never a half-written file; but a
previously-present archive can be missing (between the removal and the
move). -/
theorem c1_amended_no_half_written (newC : String) (s₀ : ArchiveSlot) (k : Nat)
    (h₀ : ∀ t, s₀ ≠ ArchiveSlot.halfWritten t) :
    (slotAfterInterrupt newC s₀ k = s₀ ∨
     slotAfterInterrupt newC s₀ k = ArchiveSlot.absent ∨
     slotAfterInterrupt newC s₀ k = ArchiveSlot.archive newC) ∧
    ∀ t, slotAfterInterrupt newC s₀ k ≠ ArchiveSlot.halfWritten t := by
  match k with
  | 0 => exact ⟨Or.inl rfl, h₀⟩
  | 1 => exact ⟨Or.inr (Or.inl rfl), by intro t h; cases h⟩
  | n + 2 =>
    have h2 : slotAfterInterrupt newC s₀ (n + 2) = ArchiveSlot.archive newC := by
      simp [slotAfterInterrupt, movePhaseSteps, List.take_succ_cons, applyPkgStep]
    exact ⟨Or.inr (Or.inr h2), by intro t h; rw [h2] at h; cases h⟩

/-- Witness for the amended claim C1 at a concrete interruption point. -/
theorem c1_amended_witness :
    (slotAfterInterrupt "newzip" (ArchiveSlot.archive "priorzip") 1 = ArchiveSlot.archive "priorzip" ∨
     slotAfterInterrupt "newzip" (ArchiveSlot.archive "priorzip") 1 = ArchiveSlot.absent ∨
     slotAfterInterrupt "newzip" (ArchiveSlot.archive "priorzip") 1 = ArchiveSlot.archive "newzip") ∧
    ∀ t, slotAfterInterrupt "newzip" (ArchiveSlot.archive "priorzip") 1 ≠ ArchiveSlot.halfWritten t :=
  c1_amended_no_half_written "newzip" (ArchiveSlot.archive "priorzip") 1
    (by intro t h; cases h)

/-! Claim C3: which entries reach the archive. -/

/-- Claim C3 is contradicted by the code at this input: the line-286 test
`os.path.isfile` follows symbolic links, so a symbolic link resolving to a
regular file is written into the archive, although the code's own comment
on that line says symbolic links are skipped; the archived set is not the
set of regular files. -/
theorem c3_symlink_archived :
    archiveArcnames "dist" outTreeEx = ["app.exe", "helper.dll"] ∧
    (∃ e ∈ archiveEntries "dist" outTreeEx,
      e.kind = EntryKind.symlinkFile ∧ relpath e.path "dist" = "helper.dll") ∧
    archiveEntries "dist" outTreeEx ≠
      (walkEntries [] "dist" outTreeEx).filter (fun e => decide (e.kind = EntryKind.regular)) := by
  refine ⟨by rfl, ⟨⟨"dist/helper.dll", "helper.dll", .symlinkFile, .utf8 "targetbytes"⟩,
    by decide, rfl, by rfl⟩, by decide⟩

/-! Claim C4: validator failure on a missing toolkit subdirectory. -/

/-- Claim C4 is refuted on the naming part: with toolkit root `C:/Qt` and
no `bin` subdirectory, the raised error message is `无效的Qt路径: C:/Qt`,
which does not contain the missing path `C:/Qt/bin`. -/
theorem c4_counterexample :
    validatePaths { qt_path := "C:/Qt" } (fun _ => false) =
      .error (.configurationError "无效的Qt路径: C:/Qt") ∧
    strContains "无效的Qt路径: C:/Qt" "C:/Qt/bin" = false := by
  exact ⟨rfl, by rfl⟩

/-- Claim C4 as amended: on any toolkit root with a missing required
subdirectory, construction fails with a configuration error naming the
toolkit root (not the missing subdirectory), and no external process is
spawned — the whole run reports failure with an empty spawn list. -/
theorem c4_amended_names_root (cfg : Config) (env : Env) (tree : Entries)
    (trace : List (String × TaskEvent))
    (hmiss : ∃ d ∈ requiredDirs, env.qtExists (cfg.qt_path ++ "/" ++ d) = false) :
    validatePaths cfg env.qtExists =
      .error (.configurationError ("无效的Qt路径: " ++ cfg.qt_path)) ∧
    buildRun cfg env tree trace = (false, []) := by
  have hv : validatePaths cfg env.qtExists =
      .error (.configurationError ("无效的Qt路径: " ++ cfg.qt_path)) :=
    validateFrom_error cfg env.qtExists requiredDirs hmiss
  refine ⟨hv, ?_⟩
  unfold buildRun
  rw [hv]

/-- Witness for the amended claim C4 at a concrete configuration. -/
theorem c4_witness :
    validatePaths cfgEx envNoQt.qtExists =
      .error (.configurationError ("无效的Qt路径: " ++ cfgEx.qt_path)) ∧
    buildRun cfgEx envNoQt Entries.nil [] = (false, []) :=
  c4_amended_names_root cfgEx envNoQt Entries.nil [] ⟨"bin", by decide, rfl⟩

/-! Claim C5: the source set handed to the compile workers. -/

/-- Claim C5 holds: the deduplicated source list of line 102 equals, as a
set, the union of the walk-found `.cpp` files (with the artifact
directories pruned by name) and the generated-source list, and no path
occurs twice in it. -/
theorem c5_source_set_union (cfg : Config) (tree : Entries) (mocFiles : List String) :
    (allSources cfg tree mocFiles).toFinset =
      (cppFiles cfg tree).toFinset ∪ mocFiles.toFinset ∧
    (allSources cfg tree mocFiles).Nodup := by
  constructor
  · have h1 : (allSources cfg tree mocFiles).toFinset =
        (cppFiles cfg tree ++ mocFiles).toFinset := by
      apply List.toFinset_eq_iff_perm_dedup.mpr
      rw [show allSources cfg tree mocFiles = (cppFiles cfg tree ++ mocFiles).dedup from rfl,
        List.dedup_idem]
    rw [h1, List.toFinset_append]
  · exact List.nodup_dedup _

/-! Claim C2: fail-fast determinism of the compilation phase. -/

/-- Claim C2 holds: over every trace of settled tasks covering the
submitted source set, if any task's compiler exited non-zero then the
shared flag — which is monotone, never reset — forces the phase to fail
with the compilation error of line 170, so no object set is handed to the
linker, whatever the other tasks did. -/
theorem c2_fail_fast (cfg : Config) (env : Env) (tree : Entries) (mocFiles : List String)
    (trace : List (String × TaskEvent)) (src : String) (c : Nat)
    (hperm : List.Perm (trace.map Prod.fst) (allSources cfg tree mocFiles))
    (hmem : (src, TaskEvent.run c) ∈ trace) (hc : c ≠ 0) :
    (∀ s : SchedState, s.flag = true → (runSched cfg s trace).flag = true) ∧
    compilePhase cfg env tree mocFiles trace = .error .compilationError := by
  refine ⟨fun s hs => runSched_flag_mono cfg trace s hs, ?_⟩
  have htne : trace ≠ [] := by
    intro h
    rw [h] at hmem
    cases hmem
  have hlen : (allSources cfg tree mocFiles).length ≠ 0 := by
    have h1 := hperm.length_eq
    rw [List.length_map] at h1
    have h2 : 0 < trace.length := List.length_pos.mpr htne
    omega
  have hcpu : cpuEff env ≠ 0 := by
    unfold cpuEff
    split
    · exact Nat.succ_ne_zero 3
    · assumption
  have hmin : ¬ min (cpuEff env) (allSources cfg tree mocFiles).length = 0 := by
    rw [Nat.min_eq_zero_iff]
    rintro (h | h)
    · exact hcpu h
    · exact hlen h
  rw [compilePhase, if_neg hmin,
    if_pos (runSched_flag_of_fail cfg src c hc trace initSched hmem)]

/-- Witness for claim C2: a single-source project whose one compile task
exited with code 1. -/
theorem c2_witness :
    (∀ s : SchedState, s.flag = true → (runSched cfgEx s traceFail).flag = true) ∧
    compilePhase cfgEx envEx treeMain [] traceFail = .error .compilationError :=
  c2_fail_fast cfgEx envEx treeMain [] traceFail "proj/main.cpp" 1
    (by decide) (by decide) (by decide)

/-! Claim C6: the per-source compiler invocation. -/

/-- The invocation the code builds coincides with the amended claim text
(per-module include directories named `Qt<Module>`). -/
theorem compileInvocation_eq_amended (cfg : Config) (src : String) :
    compileInvocation cfg src = claimC6AmendedCmd cfg src := by
  simp [compileInvocation, compile_cmd, claimC6AmendedCmd]

/-- Two sources with equal invocations are equal: the source path is the
last argument. -/
theorem claimC6AmendedCmd_inj (cfg : Config) :
    Function.Injective (claimC6AmendedCmd cfg) := by
  intro a b h
  have h2 := congrArg List.reverse h
  simp [claimC6AmendedCmd, List.reverse_append] at h2
  exact h2.1

/-- Over a valid trace in which every ran compiler exited zero, no task
can have skipped (the flag never gets set), so the spawned invocations are
exactly one per task in settlement order. -/
theorem runSched_all_zero (cfg : Config) :
    ∀ (l : List (String × TaskEvent)) (s : SchedState), s.flag = false →
      validFrom false l = true →
      (∀ src c, (src, TaskEvent.run c) ∈ l → c = 0) →
      runSched cfg s l =
        ⟨false, s.objects ++ (l.map Prod.fst).map (objPath cfg),
         s.spawns ++ (l.map Prod.fst).map (compileInvocation cfg)⟩ := by
  intro l
  induction l with
  | nil =>
    intro s hf _ _
    obtain ⟨f, o, sp⟩ := s
    replace hf : f = false := hf
    subst hf
    simp [runSched]
  | cons te rest ih =>
    intro s hf hv hz
    obtain ⟨src, e⟩ := te
    cases e with
    | skip =>
      rw [validFrom] at hv
      simp at hv
    | run c =>
      have hc : c = 0 := hz src c (List.mem_cons_self _ _)
      subst hc
      have hv' : validFrom false rest = true := by
        rw [validFrom] at hv
        simpa using hv
      have hz' : ∀ src' c', (src', TaskEvent.run c') ∈ rest → c' = 0 :=
        fun s' c' h => hz s' c' (List.mem_cons_of_mem _ h)
      rw [runSched]
      rw [show stepSched cfg s (src, TaskEvent.run 0) =
          ⟨false, s.objects ++ [objPath cfg src], s.spawns ++ [compileInvocation cfg src]⟩ by
        simp [stepSched, hf]]
      rw [ih _ rfl hv' hz']
      simp

/-- Claim C6 is refuted on the include-path shape: at a concrete
configuration the built invocation carries `-IC:/Qt/include/QtCore`, not
the `-IC:/Qt/include/Core` the claim's argument list prescribes. -/
theorem c6_counterexample :
    compileInvocation cfgEx "proj/main.cpp" ≠ claimC6Cmd cfgEx "proj/main.cpp" := by
  decide

/-- Claim C6 as amended: over a valid trace covering each submitted
source, in a run where every started compiler exited zero, the compiler
is spawned exactly once per source unit, with the argument list
`g++ -c -pipe -std=<standard> -Wall -Wextra -I<toolkit>/include
-I<project>/include [-I<toolkit>/include/Qt<Module> ...] -o <object>
<source>`. -/
theorem c6_amended_invocations (cfg : Config) (tree : Entries) (mocFiles : List String)
    (trace : List (String × TaskEvent))
    (hperm : List.Perm (trace.map Prod.fst) (allSources cfg tree mocFiles))
    (hvalid : validFrom false trace = true)
    (hzero : ∀ src c, (src, TaskEvent.run c) ∈ trace → c = 0) :
    compileSpawns cfg trace = (trace.map Prod.fst).map (claimC6AmendedCmd cfg) ∧
    (compileSpawns cfg trace).Nodup ∧
    ∀ src ∈ allSources cfg tree mocFiles,
      claimC6AmendedCmd cfg src ∈ compileSpawns cfg trace := by
  have hrun := runSched_all_zero cfg trace initSched rfl hvalid hzero
  have hfun : compileInvocation cfg = claimC6AmendedCmd cfg :=
    funext fun src => compileInvocation_eq_amended cfg src
  have hspawn : compileSpawns cfg trace = (trace.map Prod.fst).map (claimC6AmendedCmd cfg) := by
    rw [compileSpawns, hrun, ← hfun]
    rfl
  refine ⟨hspawn, ?_, ?_⟩
  · rw [hspawn]
    exact List.Nodup.map (claimC6AmendedCmd_inj cfg)
      (hperm.nodup_iff.mpr (List.nodup_dedup _))
  · intro src hsrc
    rw [hspawn]
    exact List.mem_map_of_mem _ (hperm.mem_iff.mpr hsrc)

/-- Witness for the amended claim C6: one source, compiled once with exit
code zero. -/
theorem c6_amended_witness :
    compileSpawns cfgEx traceOk = (traceOk.map Prod.fst).map (claimC6AmendedCmd cfgEx) ∧
    (compileSpawns cfgEx traceOk).Nodup ∧
    ∀ src ∈ allSources cfgEx treeMain [],
      claimC6AmendedCmd cfgEx src ∈ compileSpawns cfgEx traceOk :=
  c6_amended_invocations cfgEx treeMain [] traceOk (by decide) (by decide)
    (by
      intro src c h
      simp [traceOk] at h
      exact h.2)

/-! Claim C7: the generator-output directory is cleared first, so the
discovery phase is idempotent. -/

/-- Claim C7 holds: because lines 57-59 delete and recreate the
generator-output directory before the walk, the phase's outcome — its
generated-source list, the bytes it writes, and the generator commands it
spawns — does not depend on what the directory held before; in particular
running the phase again right after a successful run (its store now being
the first run's output) returns the byte-identical outcome. -/
theorem c7_generator_idempotent (cfg : Config) (env : Env) (tree : Entries)
    (s₁ s₂ : List (String × String)) (acc : GenAcc)
    (h : genPhase cfg env tree s₁ = .ok acc) :
    genPhase cfg env tree s₂ = .ok acc ∧
    genPhase cfg env tree acc.store = .ok acc := by
  exact ⟨h, h⟩

/-- Witness for claim C7: a run over a stale store, replayed over its own
output store. -/
theorem c7_witness :
    genPhase cfgEx envEx treeHeader [] = .ok genAccEx ∧
    genPhase cfgEx envEx treeHeader genAccEx.store = .ok genAccEx :=
  c7_generator_idempotent cfgEx envEx treeHeader [("stale", "junk")] [] genAccEx (by rfl)

/-! Claim C8: a project with zero compilable sources fails in the pool
constructor. -/

/-- Claim C8 holds: with no walked `.cpp` file and no generated source,
`max_workers = min(os.cpu_count() or 4, 0) = 0`, the
`ThreadPoolExecutor` constructor of line 159 raises, the phase returns no
object set, and the whole build reports failure. -/
theorem c8_empty_sources (cfg : Config) (env : Env) (tree : Entries)
    (trace : List (String × TaskEvent)) (acc : GenAcc)
    (hval : validatePaths cfg env.qtExists = .ok ())
    (hcpp : cppFiles cfg tree = [])
    (hgen : genPhase cfg env tree [] = .ok acc)
    (hmoc : acc.mocs = []) :
    compilePhase cfg env tree acc.mocs trace = .error .poolError ∧
    (buildRun cfg env tree trace).1 = false := by
  have hsrc : allSources cfg tree acc.mocs = [] := by
    rw [allSources, hcpp, hmoc]
    rfl
  have hcomp : compilePhase cfg env tree acc.mocs trace = .error .poolError := by
    rw [compilePhase, hsrc]
    simp
  refine ⟨hcomp, ?_⟩
  simp [buildRun, hval, hgen, hcomp]

/-- Witness for claim C8: an empty project tree. -/
theorem c8_witness :
    compilePhase cfgEx envEx Entries.nil (GenAcc.mk [] [] []).mocs [] = .error .poolError ∧
    (buildRun cfgEx envEx Entries.nil []).1 = false :=
  c8_empty_sources cfgEx envEx Entries.nil [] ⟨[], [], []⟩ rfl rfl rfl rfl

/-! Claim C9: same-named marker headers collide on one output path. -/

/-- Claim C9 holds: two marker headers with the same bare filename in two
different project directories are both generated to the single path
`moc_temp/moc_<name>.cpp` (line 72 derives the output name from the bare
filename only), the write log shows the later invocation's bytes at that
path, and after the line-102 deduplication the path reaches compilation
exactly once. -/
theorem c9_same_name_collision (cfg : Config) (env : Env)
    (d₁ d₂ fname k₁ k₂ : String)
    (_hne : d₁ ≠ d₂)
    (hh : strEndsWith fname ".h" = true)
    (hcpp : strEndsWith fname ".cpp" = false)
    (hd₁ : d₁ ∉ excludeDirs) (hd₂ : d₂ ∉ excludeDirs)
    (hm₁ : strContains k₁ "Q_OBJECT" = true)
    (hm₂ : strContains k₂ "Q_OBJECT" = true)
    (hg₁ : env.mocExit (pathJoin (pathJoin cfg.project_path d₁) fname) = 0)
    (hg₂ : env.mocExit (pathJoin (pathJoin cfg.project_path d₂) fname) = 0) :
    genPhase cfg env (treeTwoHeaders d₁ d₂ fname k₁ k₂) [] =
      .ok ⟨[mocOutputPath fname, mocOutputPath fname],
           [(mocOutputPath fname,
             env.mocOut (pathJoin (pathJoin cfg.project_path d₁) fname) k₁),
            (mocOutputPath fname,
             env.mocOut (pathJoin (pathJoin cfg.project_path d₂) fname) k₂)],
           [[mocExePath cfg, pathJoin (pathJoin cfg.project_path d₁) fname, "-o",
             mocOutputPath fname],
            [mocExePath cfg, pathJoin (pathJoin cfg.project_path d₂) fname, "-o",
             mocOutputPath fname]]⟩ ∧
    lookupLastWrite
        [(mocOutputPath fname,
          env.mocOut (pathJoin (pathJoin cfg.project_path d₁) fname) k₁),
         (mocOutputPath fname,
          env.mocOut (pathJoin (pathJoin cfg.project_path d₂) fname) k₂)]
        (mocOutputPath fname) =
      some (env.mocOut (pathJoin (pathJoin cfg.project_path d₂) fname) k₂) ∧
    (allSources cfg (treeTwoHeaders d₁ d₂ fname k₁ k₂)
        [mocOutputPath fname, mocOutputPath fname]).count (mocOutputPath fname) = 1 := by
  refine ⟨?_, ?_, ?_⟩
  · simp [genPhase, clearDir, headerEntries, treeTwoHeaders, walkEntries, hh,
      runGenList, hm₁, hm₂, hg₁, hg₂]
  · simp [lookupLastWrite]
  · have hsrc : allSources cfg (treeTwoHeaders d₁ d₂ fname k₁ k₂)
        [mocOutputPath fname, mocOutputPath fname] = [mocOutputPath fname] := by
      simp [allSources, cppFiles, cppEntries, treeTwoHeaders, walkEntries, hd₁, hd₂, hcpp,
        List.dedup_cons_of_mem]
    rw [hsrc]
    simp

/-- Witness for claim C9 at two concrete headers. -/
theorem c9_witness :
    genPhase cfgEx envEx (treeTwoHeaders "a" "b" "w.h" "class A Q_OBJECT" "class B Q_OBJECT") [] =
      .ok ⟨[mocOutputPath "w.h", mocOutputPath "w.h"],
           [(mocOutputPath "w.h", envEx.mocOut (pathJoin (pathJoin cfgEx.project_path "a") "w.h") "class A Q_OBJECT"),
            (mocOutputPath "w.h", envEx.mocOut (pathJoin (pathJoin cfgEx.project_path "b") "w.h") "class B Q_OBJECT")],
           [[mocExePath cfgEx, pathJoin (pathJoin cfgEx.project_path "a") "w.h", "-o", mocOutputPath "w.h"],
            [mocExePath cfgEx, pathJoin (pathJoin cfgEx.project_path "b") "w.h", "-o", mocOutputPath "w.h"]]⟩ ∧
    lookupLastWrite
        [(mocOutputPath "w.h", envEx.mocOut (pathJoin (pathJoin cfgEx.project_path "a") "w.h") "class A Q_OBJECT"),
         (mocOutputPath "w.h", envEx.mocOut (pathJoin (pathJoin cfgEx.project_path "b") "w.h") "class B Q_OBJECT")]
        (mocOutputPath "w.h") =
      some (envEx.mocOut (pathJoin (pathJoin cfgEx.project_path "b") "w.h") "class B Q_OBJECT") ∧
    (allSources cfgEx (treeTwoHeaders "a" "b" "w.h" "class A Q_OBJECT" "class B Q_OBJECT")
        [mocOutputPath "w.h", mocOutputPath "w.h"]).count (mocOutputPath "w.h") = 1 :=
  c9_same_name_collision cfgEx envEx "a" "b" "w.h" "class A Q_OBJECT" "class B Q_OBJECT"
    (by decide) (by decide) (by decide) (by decide) (by decide) (by decide) (by decide)
    rfl rfl

/-! Claim C10: an undecodable header aborts discovery. -/

/-- Processing a header list that contains an undecodable entry always
aborts with a decoding error (provided no earlier generator invocation
failed first, which the hypothesis on `mocExit` rules out): the
`f.read()` of line 71 raises before the marker is even checked. -/
theorem runGenList_binary_error (cfg : Config) (env : Env)
    (hmoc : ∀ p, env.mocExit p = 0) :
    ∀ (l : List WEntry) (acc : GenAcc) (e : WEntry), e ∈ l → e.data = FileData.binary →
      ∃ p, runGenList cfg env l acc = .error (.decodeError p) := by
  intro l
  induction l with
  | nil => intro acc e he _; cases he
  | cons f rest ih =>
    intro acc e he hbin
    cases hfd : f.data with
    | binary =>
      exact ⟨f.path, by simp [runGenList, hfd]⟩
    | utf8 text =>
      have hmem : e ∈ rest := by
        rcases List.mem_cons.mp he with rfl | h
        · rw [hfd] at hbin; cases hbin
        · exact h
      by_cases hq : strContains text "Q_OBJECT" = true
      · obtain ⟨p, hp⟩ := ih
          ⟨acc.mocs ++ [mocOutputPath f.name],
           acc.store ++ [(mocOutputPath f.name, env.mocOut f.path text)],
           acc.spawns ++ [[mocExePath cfg, f.path, "-o", mocOutputPath f.name]]⟩
          e hmem hbin
        refine ⟨p, ?_⟩
        rw [runGenList]
        simp only [hfd, hq, if_true, hmoc, if_pos]
        exact hp
      · obtain ⟨p, hp⟩ := ih acc e hmem hbin
        refine ⟨p, ?_⟩
        rw [runGenList]
        simp only [hfd]
        rw [if_neg hq]
        exact hp

/-- Claim C10 holds: if any walked header of the project tree is not
decodable as UTF-8, discovery aborts with a decoding error — whether or
not that header carries the marker — and the whole build reports
failure. -/
theorem c10_decode_abort (cfg : Config) (env : Env) (tree : Entries)
    (trace : List (String × TaskEvent)) (e : WEntry)
    (he : e ∈ headerEntries cfg tree) (hbin : e.data = FileData.binary)
    (hmoc : ∀ p, env.mocExit p = 0) :
    (∃ p, genPhase cfg env tree [] = .error (BuildError.decodeError p)) ∧
    (buildRun cfg env tree trace).1 = false := by
  obtain ⟨p, hp⟩ := runGenList_binary_error cfg env hmoc (headerEntries cfg tree)
    ⟨[], clearDir [], []⟩ e he hbin
  have hgen : genPhase cfg env tree [] = .error (.decodeError p) := hp
  refine ⟨⟨p, hgen⟩, ?_⟩
  unfold buildRun
  cases hval : validatePaths cfg env.qtExists with
  | error err => rfl
  | ok u => rw [hgen]

/-- Witness for claim C10: one undecodable header without the marker. -/
theorem c10_witness :
    (∃ p, genPhase cfgEx envEx treeBinHeader [] = .error (BuildError.decodeError p)) ∧
    (buildRun cfgEx envEx treeBinHeader []).1 = false :=
  c10_decode_abort cfgEx envEx treeBinHeader []
    ⟨"proj/bad.h", "bad.h", .regular, .binary⟩ (by decide) rfl (fun _ => rfl)
